import Mathlib

/-!
# A shallow embedding of the rlox bytecode interpreter

This file embeds, in Lean, the parts of the `rlox` crate that the
verification below is about:

* `src/rlox/src/vm/value.rs` — the tagged `Value` type and its operator
  implementations (`is_falsey`, `Add`, `Not`);
* `src/rlox/src/vm.rs` — selected opcode handlers of `Vm::run`
  (`SetGlobal`, `Return`, `Invoke`, `Closure`) and the helper
  `Vm::open_upvalues`;
* `src/rlox/src/compiler.rs` — the local-variable machinery
  (`resolve_local`, `add_local`, `declare_variable`, `mark_initialized`,
  the resolution step of `named_variable`);
* `src/rlox/src/compiler/scanner.rs` — the whole scanner.

Modelling conventions, chosen once and used throughout:

* Rust `f64` is modelled as `Rat`.  Every number the theorems below touch
  is small and exactly representable, and the code under study only uses
  `+` and `<` on numbers, which agree with rational arithmetic there.
* `Rc<RefCell<_>>` heap cells are modelled by an explicit heap (a
  `List`) addressed by `Nat` identifiers; sharing a cell is sharing its
  identifier.
* Rust operations that can panic (slice indexing out of bounds, integer
  underflow) are modelled in `Option`/`Except`: `none` / `.error` is the
  panic, and the constructor records which index was accessed where that
  matters.
* Stacks grow to the right: index `0` is the bottom of the value stack,
  exactly as `Vec<Value>` is indexed by the interpreter.
-/

/-! ## The value model (`src/rlox/src/vm/value.rs`, `src/rlox/src/vm/object.rs`)

`Obj` is the union of the object kinds appearing in the two files: the
`String` payload carried inline (as in `value.rs`, whose `Add` and
`PartialEq` match on `Obj::String`), and the reference-counted kinds of
`object.rs` (`Fun`, `Closure`, `NativeFun`, `Class`, `Instance`,
`BoundMethod`) modelled as `Nat` references into the corresponding
heaps. -/

inductive Obj where
  | str (s : String)
  | funRef (f : Nat)
  | closureRef (c : Nat)
  | nativeRef (n : Nat)
  | classRef (c : Nat)
  | instanceRef (i : Nat)
  | boundMethodRef (b : Nat)
deriving DecidableEq, Repr

/-- `Value` from `src/rlox/src/vm/value.rs`: `Number(f64)`, `Nil`,
`Bool(bool)`, `Obj(Rc<Obj>)`, with `f64` modelled as `Rat`. -/
inductive Value where
  | number (n : Rat)
  | nil
  | bool (b : Bool)
  | obj (o : Obj)
deriving DecidableEq, Repr

/-- `Value::is_falsey` (value.rs lines 18–25), arm for arm:
`Number(n) => n < &1.0`, `Nil => false`, `Bool(n) => n == &false`,
`Obj(_) => false`. -/
def Value.is_falsey : Value → Bool
  | .number n => decide (n < 1)
  | .nil => false
  | .bool b => b == false
  | .obj _ => false

/-- `impl Add for Value` (value.rs lines 54–68).  Two numbers add, two
strings concatenate, and the catch-all arm returns `Self::Nil`.  (In the
source the `(Obj, Obj)` pair is matched by an inner `match` whose only
arm is `(Obj::String, Obj::String)`; the other object kinds listed in
`Obj` above fall into the outer `_ => Self::Nil` arm here.) -/
def Value.add : Value → Value → Value
  | .number l, .number r => .number (l + r)
  | .obj (Obj.str l), .obj (Obj.str r) => .obj (Obj.str (l ++ r))
  | _, _ => .nil

/-- `impl Not for Value` (value.rs lines 112–122): `type Output =
Option<Self>`; `Bool(a) => Some(Bool(!a))`, `Nil => Some(Bool(true))`,
`_ => None`. -/
def Value.not : Value → Option Value
  | .bool a => some (.bool (!a))
  | .nil => some (.bool true)
  | _ => none

/-- The `OpCode::Add` handler of `Vm::run` (vm.rs lines 237–240):
`stack_operands!` pops `b` then `a` (or fails with `EmptyStack`), and the
sum is pushed.  The handler writes `self.stack.push((a + b)?)`, i.e. it
expects the addition to yield a propagatable error; with the snapshot's
`impl Add for Value`, which returns a plain `Value`, there is nothing to
propagate and the step reduces to pushing whatever `Value::add`
returned. -/
def vm_add_step (stack : List Value) : Option (List Value) :=
  match stack.getLast? with
  | none => none
  | some b =>
    match stack.dropLast.getLast? with
    | none => none
    | some a => some (stack.dropLast.dropLast ++ [Value.add a b])

/-! ## Theorems about the value operators (claims C1, C2, C7) -/

/-- Claim C1, counterexample: the claim states that `is_falsey` returns
`true` when the value is `Nil` ("in particular Nil is falsy"); in the
code the `Value::Nil` arm returns `false`, so `Nil` is truthy. -/
theorem is_falsey_nil_counterexample : Value.is_falsey Value.nil = false := rfl

/-- Claim C1, amended: `is_falsey` returns `true` exactly on
`Bool(false)` and on `Number(n)` with `n < 1.0`; `Nil` and every `Obj`
value are truthy. -/
theorem is_falsey_characterization (v : Value) :
    Value.is_falsey v = true ↔
      v = Value.bool false ∨ ∃ n : Rat, n < 1 ∧ v = Value.number n := by
  cases v with
  | number n =>
    simp only [Value.is_falsey, decide_eq_true_eq]
    constructor
    · intro h
      exact Or.inr ⟨n, h, rfl⟩
    · rintro (h | ⟨m, hm, hv⟩)
      · cases h
      · cases hv
        exact hm
  | nil => simp [Value.is_falsey]
  | bool b => cases b <;> simp [Value.is_falsey]
  | obj o => simp [Value.is_falsey]

/-- Claim C1, witness for the amended theorem: `Number(0)` is falsy
(this is the quirk the spec flags: standard Lox would call `0` truthy). -/
theorem is_falsey_characterization_witness :
    Value.is_falsey (Value.number 0) = true :=
  (is_falsey_characterization (Value.number 0)).mpr
    (Or.inr ⟨0, by norm_num, rfl⟩)

/-- Claim C2, evaluation at the failing input: adding two `Bool` values
(any mismatched combination) yields the placeholder `Value::Nil`, not an
error value, and the `Add` opcode pushes that placeholder onto the
stack; the two matched combinations behave as documented.  The handler's
own `(a + b)?` (and `object.rs`'s `Err(Error::Arithmetic(..))` for
object addition) show that the intended contract is an error result, so
the snapshot's `_ => Self::Nil` arm contradicts its own caller. -/
theorem add_mismatch_pushes_nil :
    Value.add (Value.bool true) (Value.bool true) = Value.nil ∧
    Value.add (Value.number 2) (Value.number 3) = Value.number 5 ∧
    Value.add (Value.obj (Obj.str "ab")) (Value.obj (Obj.str "cd"))
      = Value.obj (Obj.str "abcd") ∧
    vm_add_step [Value.bool true, Value.bool true] = some [Value.nil] := by
  refine ⟨rfl, by norm_num [Value.add], rfl, rfl⟩

/-- Claim C7, counterexample: the claim states one `Not` pushes
`Bool(is_falsey(v))` without error for every operand; in the code `Not`
on a `Number` yields `None` (a runtime error in the `Not` handler, which
applies `?` to it), and even on `Nil` the result `Bool(true)` differs
from `Bool(is_falsey(Nil)) = Bool(false)`. -/
theorem not_number_counterexample :
    Value.not (Value.number 5) = none ∧
    Value.not Value.nil = some (Value.bool true) ∧
    Value.bool (Value.is_falsey Value.nil) = Value.bool false := by
  exact ⟨rfl, rfl, rfl⟩

/-- Claim C7, amended: `Not` succeeds only on `Bool` and `Nil` —
`!Bool(b) = Bool(¬b)` and `!Nil = Bool(true)` — and yields `None` (a
runtime error) on every `Number` and every `Obj`; consequently the
double application `!!` is defined only there, with `!!Bool(b) = Bool(b)`
and `!!Nil = Bool(false)`. -/
theorem not_characterization :
    (∀ b : Bool, Value.not (Value.bool b) = some (Value.bool (!b))) ∧
    Value.not Value.nil = some (Value.bool true) ∧
    (∀ n : Rat, Value.not (Value.number n) = none) ∧
    (∀ o : Obj, Value.not (Value.obj o) = none) ∧
    (∀ b : Bool,
      (Value.not (Value.bool b)).bind Value.not = some (Value.bool b)) ∧
    (Value.not Value.nil).bind Value.not = some (Value.bool false) := by
  refine ⟨fun b => rfl, rfl, fun n => rfl, fun o => rfl, fun b => ?_, rfl⟩
  cases b <;> rfl

/-! ## Globals and `OpCode::SetGlobal` (`src/rlox/src/vm.rs` lines 134–154)

The VM's `globals: HashMap<String, Value>` is modelled as an association
list with unique keys; `map_insert` mirrors `HashMap::insert` (replace
the binding if the key is present, append otherwise, and return the
previous value), `map_get` mirrors `HashMap::get`. -/

/-- `HashMap::get`. -/
def map_get : List (String × Value) → String → Option Value
  | [], _ => none
  | (k, v) :: rest, key => if k = key then some v else map_get rest key

/-- `HashMap::insert`: the updated map together with the value previously
bound to the key (`None` when the key was absent). -/
def map_insert : List (String × Value) → String → Value →
    List (String × Value) × Option Value
  | [], key, v => ([(key, v)], none)
  | (k, w) :: rest, key, v =>
    if k = key then ((key, v) :: rest, some w)
    else
      let r := map_insert rest key v
      ((k, w) :: r.1, r.2)

/-- `Vm::identifier` (vm.rs lines 459–464): extract the string payload of
a constant, defaulting to the empty string.  (The source matches
`Value::String(v)`; in this snapshot's value model strings live as
`Obj::String`, so the string payload is matched through `obj`.) -/
def identifier : Value → String
  | .obj (.str s) => s
  | _ => ""

/-- Errors raised by the opcode handlers embedded below:
`Error::Runtime(msg, line)` and `Error::EmptyStack(site)`. -/
inductive RtError where
  | runtime (msg : String) (line : Nat)
  | emptyStack (site : String)
deriving DecidableEq, Repr

/-- The `OpCode::SetGlobal { name }` handler (vm.rs lines 134–154),
step for step: read the constant at `name` (panic, modelled `none`, if
the index is out of the pool — `Chunk::get_constant` indexes the
constant vector), read the stack top (or fail with
`EmptyStack("OpCode::SetGlobal")`), then *insert the binding into the
globals map*, and only if `insert` returned `None` (key previously
absent) raise `Undefined variable <name>`.  The result pairs the new
globals map with the error, if any. -/
def set_global (globals : List (String × Value)) (constants : List Value)
    (name : Nat) (stack : List Value) (line : Nat) :
    Option (List (String × Value) × Option RtError) :=
  match constants.get? name with
  | none => none
  | some cv =>
    match stack.getLast? with
    | none => some (globals, some (.emptyStack "OpCode::SetGlobal"))
    | some top =>
      let r := map_insert globals (identifier cv) top
      match r.2 with
      | none =>
        some (r.1, some (.runtime ("Undefined variable " ++ identifier cv) line))
      | some _ => some (r.1, none)

/-- After `map_insert`, the key is bound to the inserted value. -/
theorem map_get_insert (g : List (String × Value)) (k : String) (v : Value) :
    map_get (map_insert g k v).1 k = some v := by
  induction g with
  | nil => simp [map_insert, map_get]
  | cons p rest ih =>
    by_cases h : p.1 = k
    · simp [map_insert, h, map_get]
    · simp [map_insert, h, map_get, ih]

/-- Claim C9: when `SetGlobal` executes with the name absent from the
globals map, the step raises `Undefined variable <name>` — but the map
has already been mutated: afterwards the name is bound to the assigned
value, so the failing instruction is not atomic with respect to the
globals map. -/
theorem set_global_not_atomic (globals : List (String × Value))
    (constants : List Value) (name : Nat) (stack : List Value) (line : Nat)
    (nm : String) (v : Value)
    (hc : constants.get? name = some (Value.obj (Obj.str nm)))
    (ht : stack.getLast? = some v)
    (habsent : map_get globals nm = none) :
    ∃ g2, set_global globals constants name stack line
        = some (g2, some (RtError.runtime ("Undefined variable " ++ nm) line)) ∧
      map_get g2 nm = some v := by
  have hold : (map_insert globals nm v).2 = none := by
    clear hc ht
    induction globals with
    | nil => simp [map_insert]
    | cons p rest ih =>
      by_cases h : p.1 = nm
      · exact absurd habsent (by simp [map_get, h])
      · have : map_get rest nm = none := by simpa [map_get, h] using habsent
        simp [map_insert, h, ih this]
  refine ⟨(map_insert globals nm v).1, ?_, map_get_insert globals nm v⟩
  have hc2 : constants[name]? = some (Value.obj (Obj.str nm)) := by
    simpa using hc
  simp [set_global, hc2, ht, identifier, hold]

/-- Claim C9, witness: assigning `7` to the undefined global `y` (with
`x` the only defined global) raises `Undefined variable y`, yet leaves
`y` bound to `7`. -/
theorem set_global_not_atomic_witness :
    ∃ g2, set_global [("x", Value.number 1)] [Value.obj (Obj.str "y")] 0
        [Value.number 7] 3
        = some (g2, some (RtError.runtime "Undefined variable y" 3)) ∧
      map_get g2 "y" = some (Value.number 7) :=
  set_global_not_atomic [("x", Value.number 1)] [Value.obj (Obj.str "y")] 0
    [Value.number 7] 3 "y" (Value.number 7) rfl rfl rfl

/-! ## `OpCode::Return` (`src/rlox/src/vm.rs` lines 318–351)

State touched by the non-last-frame branch of the handler: the value
stack, the heap of upvalue cells (each `Rc<RefCell<Value>>` is a `Nat`
index into `heap`), and the open-upvalue registry
`IndexMap<usize, Rc<RefCell<Value>>>` as an insertion-ordered list of
`(slot key, cell)` pairs. -/

structure RState where
  stack : List Value
  heap : List Value
  openUpvalues : List (Nat × Nat)
deriving DecidableEq, Repr

/-- The drain loop of the `Return` handler:
`for upvalue in self.open_upvalues.drain(..) { *upvalue.1.borrow_mut() =
self.stack.remove(frame.slot + upvalue.0); }` — every registry entry, in
insertion order, has the stack element at index `slot + key` removed
from the stack (`Vec::remove`, which shifts the suffix left and panics —
`none` — when the index is out of bounds) and written into its cell. -/
def return_drain : List (Nat × Nat) → Nat → List Value → List Value →
    Option (List Value × List Value)
  | [], _, stack, heap => some (stack, heap)
  | (k, cid) :: rest, slot, stack, heap =>
    if h : slot + k < stack.length then
      return_drain rest slot (stack.eraseIdx (slot + k))
        (heap.set cid stack[slot + k])
    else none

/-- The non-last-frame branch of the `Return` handler: pop the result
(`EmptyStack`, modelled `none`, on an empty stack), drain the whole
open-upvalue registry, truncate the stack to the returning frame's
`slot`, push the result.  The registry is left empty by `drain(..)`. -/
def return_step (st : RState) (slot : Nat) : Option RState :=
  match st.stack.getLast? with
  | none => none
  | some result =>
    match return_drain st.openUpvalues slot st.stack.dropLast st.heap with
    | none => none
    | some (s2, h2) => some ⟨s2.take slot ++ [result], h2, []⟩

/-- Claim C3, counterexample: a registry entry whose slot (`0`) lies
*below* the returning frame's slot base (`1`).  The claim says such an
entry stays registered and open; the handler's `drain(..)` removes it
(the registry afterwards is empty) and overwrites its cell with the
stack element at `slot base + key` (= `11`, not the element at the
entry's own slot `0`). -/
theorem return_below_base_counterexample :
    return_step
        ⟨[Value.number 10, Value.number 11, Value.number 12, Value.number 99],
          [Value.nil], [(0, 0)]⟩ 1
      = some ⟨[Value.number 10, Value.number 99], [Value.number 11], []⟩ ∧
    ([] : List (Nat × Nat)) ≠ [(0, 0)] := by
  exact ⟨rfl, by decide⟩

/-- Removing a list element at an index `≥ n` leaves the first `n`
elements unchanged. -/
theorem take_eraseIdx_of_le {α : Type} (l : List α) (i n : Nat) (h : n ≤ i) :
    (l.eraseIdx i).take n = l.take n := by
  induction l generalizing i n with
  | nil => simp [List.eraseIdx]
  | cons a t ih =>
    cases i with
    | zero =>
      have hn : n = 0 := Nat.le_zero.mp h
      subst hn
      simp
    | succ j =>
      cases n with
      | zero => simp
      | succ m =>
        simp only [List.eraseIdx_cons_succ, List.take_succ_cons]
        rw [ih j m (Nat.le_of_succ_le_succ h)]

/-- The drain loop only removes stack elements at indices `≥ slot`, so
the stack prefix below `slot` survives it. -/
theorem return_drain_take (ups : List (Nat × Nat)) (slot : Nat) :
    ∀ stack heap s2 h2,
      return_drain ups slot stack heap = some (s2, h2) →
      s2.take slot = stack.take slot := by
  induction ups with
  | nil =>
    intro stack heap s2 h2 h
    simp only [return_drain] at h
    cases h
    rfl
  | cons p rest ih =>
    intro stack heap s2 h2 h
    obtain ⟨k, cid⟩ := p
    simp only [return_drain] at h
    split at h
    · next hlt =>
      have := ih _ _ _ _ h
      rw [this, take_eraseIdx_of_le _ _ _ (Nat.le_add_right slot k)]
    · cases h

/-- Claim C3, amended: when `Return` pops a frame that is not the last
one, the handler drains the *entire* open-upvalue registry — every
entry, regardless of how its slot compares to the returning frame's slot
base, is closed and removed, leaving the registry empty — and the
resulting stack is the old stack below the slot base with the call
result on top. -/
theorem return_drains_whole_registry (st : RState) (slot : Nat) (st2 : RState)
    (h : return_step st slot = some st2) :
    st2.openUpvalues = [] ∧
    ∃ result, st.stack.getLast? = some result ∧
      st2.stack = st.stack.dropLast.take slot ++ [result] := by
  unfold return_step at h
  cases hres : st.stack.getLast? with
  | none => rw [hres] at h; cases h
  | some result =>
    rw [hres] at h
    cases hdr : return_drain st.openUpvalues slot st.stack.dropLast st.heap with
    | none => rw [hdr] at h; cases h
    | some p =>
      obtain ⟨s2, h2⟩ := p
      rw [hdr] at h
      cases h
      exact ⟨rfl, result, rfl, by rw [return_drain_take _ _ _ _ _ _ hdr]⟩

/-- Claim C3, witness: a one-entry registry at slot base `0`; the step
empties the registry and leaves `[result]` on the stack. -/
theorem return_drains_whole_registry_witness :
    (⟨[Value.number 2], [], []⟩ : RState).openUpvalues = [] ∧
    ∃ result,
      ([Value.number 1, Value.number 2] : List Value).getLast? = some result ∧
      (⟨[Value.number 2], [], []⟩ : RState).stack
        = ([Value.number 1, Value.number 2] : List Value).dropLast.take 0
            ++ [result] :=
  return_drains_whole_registry ⟨[Value.number 1, Value.number 2], [], [(0, 7)]⟩
    0 ⟨[Value.number 2], [], []⟩ (by decide)

/-! ## `OpCode::Closure` and `Vm::open_upvalues`
(`src/rlox/src/vm.rs` lines 406–412 and 563–590) -/

/-- `UpValueDescriptor` from `src/rlox/src/vm/object.rs`. -/
structure UpValueDescriptor where
  index : Nat
  is_local : Bool
deriving DecidableEq, Repr

/-- `IndexMap::get` on the open-upvalue registry. -/
def lookup_key : List (Nat × Nat) → Nat → Option Nat
  | [], _ => none
  | (k, c) :: rest, key => if k = key then some c else lookup_key rest key

/-- `Vm::open_upvalues` (vm.rs lines 563–590): build the upvalue cells of
a new closure from the function's descriptors, in order.  For a
descriptor with `is_local`, the registry is consulted under the key
`upvalue_descriptor.index` — the descriptor's index itself; on a miss a
fresh `Nil` cell is created (here: appended to the heap) and registered
under that same key (`IndexMap::insert` appends, since the key was
absent).  For a non-local descriptor the enclosing closure's cell
`closure.upvalues[index]` is shared (panic, modelled `none`, if the
index is out of bounds).  The function has no access to the running
frame's slot base — `frame.slot` is not among its inputs. -/
def open_upvalues : List UpValueDescriptor → List (Nat × Nat) → List Value →
    List Nat → Option (List Nat × List (Nat × Nat) × List Value)
  | [], reg, heap, _ => some ([], reg, heap)
  | d :: rest, reg, heap, clos =>
    if d.is_local then
      match lookup_key reg d.index with
      | some cid =>
        match open_upvalues rest reg heap clos with
        | none => none
        | some (cells, reg2, heap2) => some (cid :: cells, reg2, heap2)
      | none =>
        let cid := heap.length
        match open_upvalues rest (reg ++ [(d.index, cid)])
            (heap ++ [Value.nil]) clos with
        | none => none
        | some (cells, reg2, heap2) => some (cid :: cells, reg2, heap2)
    else
      match clos.get? d.index with
      | none => none
      | some cid =>
        match open_upvalues rest reg heap clos with
        | none => none
        | some (cells, reg2, heap2) => some (cid :: cells, reg2, heap2)

/-- Claim C4, counterexample: a frame with slot base `1` and a local
descriptor with index `0`.  The registry holds cell `5` under key
`1 = slot_base + index`, which the claim says is reused; the code looks
up key `0` (the raw index), misses, creates the fresh cell `6` and
registers it under key `0` — so the built closure holds cell `6`, not
cell `5`. -/
theorem closure_upvalue_counterexample :
    open_upvalues [⟨0, true⟩] [(1, 5)] (List.replicate 6 Value.nil) []
      = some ([6], [(1, 5), (0, 6)], List.replicate 7 Value.nil) ∧
    (6 : Nat) ≠ 5 := by
  exact ⟨rfl, by decide⟩

/-- Claim C4, amended: the registry key is the descriptor's `index`
itself (a frame-relative slot), not `slot_base + index`: the registered
cell under key `index` is reused when present, otherwise a fresh `Nil`
cell is created and registered under key `index`; a non-local descriptor
shares the enclosing closure's `upvalues[index]` cell. -/
theorem closure_upvalue_key_is_index (d : UpValueDescriptor)
    (reg : List (Nat × Nat)) (heap : List Value) (clos : List Nat) :
    (d.is_local = true → ∀ cid, lookup_key reg d.index = some cid →
      open_upvalues [d] reg heap clos = some ([cid], reg, heap)) ∧
    (d.is_local = true → lookup_key reg d.index = none →
      open_upvalues [d] reg heap clos
        = some ([heap.length], reg ++ [(d.index, heap.length)],
            heap ++ [Value.nil])) ∧
    (d.is_local = false → ∀ cid, clos.get? d.index = some cid →
      open_upvalues [d] reg heap clos = some ([cid], reg, heap)) := by
  refine ⟨fun hl cid hget => ?_, fun hl hget => ?_, fun hl cid hget => ?_⟩
  · simp [open_upvalues, hl, hget]
  · simp [open_upvalues, hl, hget]
  · rw [List.get?_eq_getElem?] at hget
    simp [open_upvalues, hl, hget]

/-- Claim C4, witness: a registry holding cell `9` under key `2` serves a
local descriptor with index `2` directly. -/
theorem closure_upvalue_key_is_index_witness :
    open_upvalues [⟨2, true⟩] [(2, 9)] [] [] = some ([9], [(2, 9)], []) :=
  (closure_upvalue_key_is_index ⟨2, true⟩ [(2, 9)] [] []).1 rfl 9 rfl

/-! ## `OpCode::Invoke` (`src/rlox/src/vm.rs` lines 353–379)

Classes and instances (`src/rlox/src/vm/object.rs`) are modelled with
explicit heaps: an `Obj.instanceRef i` names `instances[i]`, whose
`cls` names an entry of `classes`; a class's `methods` map closure
identifiers by name, and an instance's `fields` map values by name. -/

structure InstanceObj where
  cls : Nat
  fields : List (String × Value)
deriving DecidableEq, Repr

structure ClassObj where
  name : String
  methods : List (String × Nat)
deriving DecidableEq, Repr

/-- `HashMap::get` on a name-keyed map of closure identifiers. -/
def methods_get : List (String × Nat) → String → Option Nat
  | [], _ => none
  | (k, v) :: rest, key => if k = key then some v else methods_get rest key

/-- The state the `Invoke` handler reads. -/
structure InvState where
  stack : List Value
  instances : List InstanceObj
  classes : List ClassObj
  constants : List Value
deriving DecidableEq, Repr

/-- What one execution of the `Invoke` handler does. -/
inductive InvokeOutcome where
  | calls (closureId slot : Nat)
  | err (msg : String)
  | skipped
deriving DecidableEq, Repr

/-- The `OpCode::Invoke { method, arg_count }` handler (vm.rs lines
353–379), step for step: `index = stack.len() - arg_count - 1` (`none`
models the debug-build underflow panic when the stack is shorter than
`arg_count + 1`); if `stack.get(index)` is an instance, look the name
`constants[method]` up in the *method map of the instance's class* — on
a hit, `self.call(method, index)` pushes the frame (outcome `calls`);
on a miss the handler *does nothing*: control falls out of both `if
let`s to the common `frame.ip += 1` (outcome `skipped`).  Only when the
value at `index` is not an instance (or `get` returned `None`) is the
error `Invoke only on instances` raised.  The `none` results for
dangling heap references or an out-of-range constant index model
situations the Rust ownership model rules out or turns into panics. -/
def invoke_step (st : InvState) (method arg_count : Nat) : Option InvokeOutcome :=
  if st.stack.length < arg_count + 1 then none
  else
    match st.stack.get? (st.stack.length - arg_count - 1) with
    | some (Value.obj (Obj.instanceRef i)) =>
      match st.instances.get? i with
      | none => none
      | some inst =>
        match st.constants.get? method with
        | none => none
        | some cv =>
          match st.classes.get? inst.cls with
          | none => none
          | some c =>
            match methods_get c.methods (identifier cv) with
            | some m => some (.calls m (st.stack.length - arg_count - 1))
            | none => some .skipped
    | some _ => some (.err "Invoke only on instances")
    | none => some (.err "Invoke only on instances")

/-- Claim C6, counterexample: an instance of a method-less class carrying
a callable in its field `f`.  The claim says `Invoke` falls back to the
field and calls it; the handler skips the instruction instead — it
neither calls anything nor errors. -/
theorem invoke_field_counterexample :
    invoke_step
        ⟨[Value.obj (Obj.instanceRef 0)],
          [⟨0, [("f", Value.obj (Obj.closureRef 4))]⟩],
          [⟨"Oops", []⟩],
          [Value.obj (Obj.str "f")]⟩ 0 0
      = some InvokeOutcome.skipped ∧
    InvokeOutcome.skipped ≠ InvokeOutcome.calls 4 0 := by
  exact ⟨rfl, by decide⟩

/-- Claim C6, amended: when the receiver is an instance whose class has
no method named `constants[k]`, the `Invoke` handler performs no field
fallback and raises no error — whatever the instance's fields hold, the
instruction is a no-op and execution proceeds with the next
instruction. -/
theorem invoke_missing_method_skips (st : InvState) (method arg_count i : Nat)
    (inst : InstanceObj) (cv : Value) (c : ClassObj)
    (hlen : ¬ st.stack.length < arg_count + 1)
    (hrecv : st.stack.get? (st.stack.length - arg_count - 1)
      = some (Value.obj (Obj.instanceRef i)))
    (hinst : st.instances.get? i = some inst)
    (hcv : st.constants.get? method = some cv)
    (hcls : st.classes.get? inst.cls = some c)
    (hmiss : methods_get c.methods (identifier cv) = none) :
    invoke_step st method arg_count = some InvokeOutcome.skipped := by
  rw [List.get?_eq_getElem?] at hrecv hinst hcv hcls
  simp [invoke_step, hlen, hrecv, hinst, hcv, hcls, hmiss]

/-- Claim C6, witness: the concrete miss of the counterexample, with a
field that does hold a closure. -/
theorem invoke_missing_method_skips_witness :
    invoke_step
        ⟨[Value.obj (Obj.instanceRef 0)],
          [⟨0, [("g", Value.obj (Obj.closureRef 4))]⟩],
          [⟨"Oops", [("m", 9)]⟩],
          [Value.obj (Obj.str "g")]⟩ 0 0
      = some InvokeOutcome.skipped :=
  invoke_missing_method_skips
    ⟨[Value.obj (Obj.instanceRef 0)],
      [⟨0, [("g", Value.obj (Obj.closureRef 4))]⟩],
      [⟨"Oops", [("m", 9)]⟩],
      [Value.obj (Obj.str "g")]⟩ 0 0 0
    ⟨0, [("g", Value.obj (Obj.closureRef 4))]⟩ (Value.obj (Obj.str "g"))
    ⟨"Oops", [("m", 9)]⟩ (by decide) rfl rfl rfl rfl (by decide)

/-! ## Local-variable handling in the compiler (`src/rlox/src/compiler.rs`)

The slice of `Compiler`/`State` that `var` declarations touch: the
current `scope_depth`, the `locals` vector, accumulated error messages,
the constant pool of identifier names, and the emitted opcodes.  Only
the opcodes this path can emit are modelled. -/

structure LocalVar where
  name : String
  depth : Int
  is_captured : Bool
deriving DecidableEq, Repr

inductive COp where
  | getLocal (slot : Nat)
  | getGlobal (name : Nat)
deriving DecidableEq, Repr

structure CState where
  scope_depth : Int
  locals : List LocalVar
  errors : List String
  constants : List String
  ops : List COp
deriving DecidableEq, Repr

/-- The loop body of `Compiler::resolve_local` (compiler.rs lines
206–218), which scans indices from `locals.len() - 1` down to `0`: at
the first local whose name equals the reference, return `None` if its
depth is `-1` and `Some(i)` otherwise.  `None` is also the result when
no name matches — and the caller `named_variable` then falls through to
upvalue and finally global resolution; `None` raises no error. -/
def resolve_local_scan : List (Nat × LocalVar) → String → Option Nat
  | [], _ => none
  | (i, l) :: rest, name =>
    if l.name = name then
      if l.depth = -1 then none else some i
    else resolve_local_scan rest name

/-- `Compiler::resolve_local`: the reverse scan over the indexed locals. -/
def resolve_local (locals : List LocalVar) (name : String) : Option Nat :=
  resolve_local_scan locals.enum.reverse name

/-- `Compiler::add_local` (compiler.rs lines 262–265):
`Local::new(name, self.state().scope_depth)` — the new local is pushed
with the *current scope depth* as its depth (not the `-1` sentinel). -/
def add_local (st : CState) (name : String) : CState :=
  { st with locals := st.locals ++ [⟨name, st.scope_depth, false⟩] }

/-- The duplicate-check loop of `Compiler::declare_variable` over the
reversed locals: stop (no error) at the first local with
`depth != -1 && depth < scope_depth`; report a duplicate when a
remaining local has the same name. -/
def declare_scan : List LocalVar → String → Int → Bool
  | [], _, _ => false
  | l :: rest, name, sd =>
    if l.depth ≠ -1 ∧ l.depth < sd then false
    else if l.name = name then true
    else declare_scan rest name sd

/-- `Compiler::declare_variable` (compiler.rs lines 267–287): globals
(`scope_depth == 0`) are not declared here; otherwise report
`Already a variable with this name in this scope.` on a duplicate in the
current scope, else `add_local`. -/
def declare_variable (st : CState) (name : String) : CState :=
  if st.scope_depth = 0 then st
  else if declare_scan st.locals.reverse name st.scope_depth then
    { st with errors := st.errors ++ ["Already a variable with this name in this scope."] }
  else add_local st name

/-- `Compiler::mark_initialized` (compiler.rs lines 300–306): at global
scope do nothing; otherwise set the depth of the last local to the
current scope depth.  (With an empty locals vector the source's
`len() - 1` would underflow and panic; `declare_variable` has always
pushed a local before this runs, so the `[]` arm is unreachable and kept
as the identity.) -/
def mark_initialized (st : CState) : CState :=
  if st.scope_depth = 0 then st
  else
    match st.locals.getLast? with
    | none => st
    | some l =>
      { st with locals := st.locals.dropLast ++ [{ l with depth := st.scope_depth }] }

/-- The resolution-and-emit step of `named_variable` (compiler.rs lines
875–896) in its `get` branch, for a compiler with a single `State` (no
enclosing function, so `resolve_upvalue(0, ..)` returns `None` at its
`state_index < 1` guard): a resolved local emits `GetLocal(i)`;
otherwise `identifier_constant` interns the name and `GetGlobal` is
emitted. -/
def named_variable_get (st : CState) (name : String) : CState :=
  match resolve_local st.locals name with
  | some i => { st with ops := st.ops ++ [.getLocal i] }
  | none =>
    { st with constants := st.constants ++ [name],
              ops := st.ops ++ [.getGlobal st.constants.length] }

/-- Compilation of the statement `var <name> = <name>;` at local scope,
composed exactly as `Compiler::var_declaration` runs it:
`parse_variable` consumes the name and calls `declare_variable` (at
depth > 0 no constant is interned and `0` is returned); the initializer
expression is the lone identifier `<name>`, handled by the `variable`
prefix rule via `named_variable` in its `get` branch (the next token is
`;`, not `=`); `define_variable(0)` then calls `mark_initialized`. -/
def var_decl_self_init (st : CState) (name : String) : CState :=
  mark_initialized (named_variable_get (declare_variable st name) name)

/-- Claim C5, evaluation at the failing input `{ var a = a; }`: starting
inside a block (scope depth 1, only the reserved slot-0 local), the
declaration compiles *without any error* — `add_local` records `a` at
depth `1` (never the `-1` sentinel), so the initializer's reference to
`a` resolves to the fresh local itself and emits `GetLocal(1)`.  The
error message `Can't read local variable in its own initializer.` is
produced nowhere (and even a depth `-1` local would make `resolve_local`
return `None`, silently falling through to global resolution, as the
final conjunct shows). -/
theorem var_self_init_no_error :
    var_decl_self_init ⟨1, [⟨"", 0, false⟩], [], [], []⟩ "a"
      = ⟨1, [⟨"", 0, false⟩, ⟨"a", 1, false⟩], [], [], [COp.getLocal 1]⟩ ∧
    resolve_local [⟨"", 0, false⟩, ⟨"a", -1, false⟩] "a" = none ∧
    named_variable_get ⟨1, [⟨"", 0, false⟩, ⟨"a", -1, false⟩], [], [], []⟩ "a"
      = ⟨1, [⟨"", 0, false⟩, ⟨"a", -1, false⟩], [], ["a"], [COp.getGlobal 0]⟩ := by
  exact ⟨by decide, by decide, by decide⟩

/-! ## The scanner (`src/rlox/src/compiler/scanner.rs`)

The scanner state is the cursor of the source struct: `source` (a byte
slice; here a `List Char`, faithful for the ASCII sources all theorems
below use), `start`, `current`, `line`.  `Scanner::peek` and
`Scanner::peek_next` index `source.as_bytes()` *without a bounds check*,
so an access at or past the end is a panic; it is modelled as
`.error (.oob idx)` carrying the offending index.  The `while` loops are
written with explicit fuel (`.fuelOut` = fuel exhausted, an embedding
artifact only; `scan_token` passes `source.length + 1`, which no loop
can consume, since every iteration advances `current`). -/

structure Sc where
  source : List Char
  start : Nat
  current : Nat
  line : Nat
deriving DecidableEq, Repr

inductive ScanErr where
  | oob (idx : Nat)
  | fuelOut
deriving DecidableEq, Repr

inductive TokenKind where
  | LeftParen | RightParen | LeftBrace | RightBrace
  | Comma | Dot | Minus | Plus | Semicolon | Slash | Star
  | Bang | BangEqual | Equal | EqualEqual
  | Greater | GreaterEqual | Less | LessEqual
  | Identifier | String | Number
  | And | Class | Else | False | For | Fun | If | Nil | Or
  | Print | Return | Super | This | True | Var | While
  | Error | Eof
deriving DecidableEq, Repr

structure Token where
  kind : TokenKind
  lexeme : List Char
  line : Nat
deriving DecidableEq, Repr

/-- `Scanner::is_at_end`: `self.current >= self.source.len()`. -/
def is_at_end (st : Sc) : Bool := st.source.length ≤ st.current

/-- `Scanner::peek`: `self.source.as_bytes()[self.current]` — unchecked. -/
def peek (st : Sc) : Except ScanErr Char :=
  match st.source.get? st.current with
  | some c => .ok c
  | none => .error (.oob st.current)

/-- `Scanner::peek_next`: `self.source.as_bytes()[self.current + 1]` —
unchecked. -/
def peek_next (st : Sc) : Except ScanErr Char :=
  match st.source.get? (st.current + 1) with
  | some c => .ok c
  | none => .error (.oob (st.current + 1))

/-- The cursor increment of `Scanner::advance`.  (`advance` also returns
the byte at the old `current`; every call below reads that byte through
`peek` first, so the read is known in bounds when `bump` runs.) -/
def bump (st : Sc) : Sc := { st with current := st.current + 1 }

/-- `Scanner::lexeme`: `&self.source[self.start..self.current]`. -/
def lexeme (st : Sc) : List Char :=
  (st.source.drop st.start).take (st.current - st.start)

/-- `Scanner::make_token`. -/
def make_token (k : TokenKind) (st : Sc) : Token × Sc :=
  (⟨k, lexeme st, st.line⟩, st)

/-- `Scanner::error_token` — note the source builds the token from the
*lexeme*, like `make_token`, and never uses its `message` argument. -/
def error_token (st : Sc) : Token × Sc :=
  (⟨TokenKind.Error, lexeme st, st.line⟩, st)

/-- Rust `char::is_whitespace`, restricted to the ASCII range (the
Unicode `White_Space` characters below `0x80`). -/
def rust_is_whitespace (c : Char) : Bool :=
  c = ' ' ∨ c = '\t' ∨ c = '\n' ∨ c = '\x0b' ∨ c = '\x0c' ∨ c = '\r'

/-- `Scanner::compare` (scanner.rs lines 92–99): here `is_at_end` *is*
checked before `peek`, so the read is safe. -/
def sc_compare (st : Sc) (expected : Char) (kindA kindB : TokenKind) :
    TokenKind × Sc :=
  if h : st.current < st.source.length then
    if st.source.get ⟨st.current, h⟩ ≠ expected then (kindB, st)
    else (kindA, bump st)
  else (kindB, st)

/-- The comment-skipping loop of `skip_whitespace`:
`while self.peek() != '\n' && !self.is_at_end() { self.advance(); }`.
Because `peek` runs first, reaching the end of the source inside a
comment is an out-of-bounds access, and when `peek` succeeds the
`is_at_end` conjunct is already false. -/
def comment_loop : Nat → Sc → Except ScanErr Sc
  | 0, _ => .error .fuelOut
  | fuel + 1, st =>
    match peek st with
    | .error e => .error e
    | .ok c => if c = '\n' then .ok st else comment_loop fuel (bump st)

/-- `Scanner::skip_whitespace` (scanner.rs lines 113–130): consume
whitespace; on a newline *set* `self.line = 1`; at `//` skip the comment
body (then return, leaving the terminating newline unconsumed); return
at the first non-whitespace character.  A lone `/` at the end of the
source makes `peek_next` read out of bounds. -/
def skip_whitespace : Nat → Sc → Except ScanErr Sc
  | 0, _ => .error .fuelOut
  | fuel + 1, st =>
    if is_at_end st then .ok st
    else
      match peek st with
      | .error e => .error e
      | .ok c =>
        if rust_is_whitespace c then
          skip_whitespace fuel (bump (if c = '\n' then { st with line := 1 } else st))
        else if c = '/' then
          match peek_next st with
          | .error e => .error e
          | .ok c2 => if c2 = '/' then comment_loop fuel st else .ok st
        else .ok st

/-- The digit loop of `Scanner::number`:
`while self.peek().is_digit(10)` — `peek` is unchecked, so a source
ending right after a digit is an out-of-bounds access. -/
def digits_loop : Nat → Sc → Except ScanErr Sc
  | 0, _ => .error .fuelOut
  | fuel + 1, st =>
    match peek st with
    | .error e => .error e
    | .ok c => if c.isDigit then digits_loop fuel (bump st) else .ok st

/-- `Scanner::number` (scanner.rs lines 149–163): integer digits, then
`if self.peek() == '.' && self.peek_next().is_digit(10)` — when the
source ends right after the `.`, `peek_next` reads out of bounds —
then fractional digits. -/
def number_fn (fuel : Nat) (st : Sc) : Except ScanErr (Token × Sc) :=
  match digits_loop fuel st with
  | .error e => .error e
  | .ok st1 =>
    match peek st1 with
    | .error e => .error e
    | .ok c =>
      if c = '.' then
        match peek_next st1 with
        | .error e => .error e
        | .ok c2 =>
          if c2.isDigit then
            match digits_loop fuel (bump st1) with
            | .error e => .error e
            | .ok st2 => .ok (make_token TokenKind.Number st2)
          else .ok (make_token TokenKind.Number st1)
      else .ok (make_token TokenKind.Number st1)

/-- The keyword table of `Scanner::identifier_type`. -/
def identifier_type (st : Sc) : TokenKind :=
  let s := String.mk (lexeme st)
  if s = "and" then .And
  else if s = "class" then .Class
  else if s = "else" then .Else
  else if s = "false" then .False
  else if s = "for" then .For
  else if s = "fun" then .Fun
  else if s = "if" then .If
  else if s = "nil" then .Nil
  else if s = "or" then .Or
  else if s = "print" then .Print
  else if s = "return" then .Return
  else if s = "super" then .Super
  else if s = "this" then .This
  else if s = "true" then .True
  else if s = "var" then .Var
  else if s = "while" then .While
  else .Identifier

/-- The loop of `Scanner::identifier`:
`while self.peek().is_alphabetic() || self.peek().is_digit(10)` — again
an unchecked `peek`, so a source ending right after an identifier
character is an out-of-bounds access.  (Rust `is_alphabetic` restricted
to ASCII is `Char.isAlpha`; note it does not include `_`.) -/
def ident_loop : Nat → Sc → Except ScanErr Sc
  | 0, _ => .error .fuelOut
  | fuel + 1, st =>
    match peek st with
    | .error e => .error e
    | .ok c => if c.isAlpha || c.isDigit then ident_loop fuel (bump st) else .ok st

/-- `Scanner::identifier`. -/
def identifier_fn (fuel : Nat) (st : Sc) : Except ScanErr (Token × Sc) :=
  match ident_loop fuel st with
  | .error e => .error e
  | .ok st1 => .ok (make_token (identifier_type st1) st1)

/-- The body loop of `Scanner::string`:
`while self.peek() != '"' && !self.is_at_end()`, counting the newlines
inside the literal with `self.line += 1`.  `peek` runs before the
`is_at_end` conjunct, so an unterminated string is an out-of-bounds
access before the `Unterminated string` check is reached. -/
def string_loop : Nat → Sc → Except ScanErr Sc
  | 0, _ => .error .fuelOut
  | fuel + 1, st =>
    match peek st with
    | .error e => .error e
    | .ok c =>
      if c = '"' then .ok st
      else string_loop fuel (bump (if c = '\n' then { st with line := st.line + 1 } else st))

/-- `Scanner::string` (scanner.rs lines 132–147).  The `is_at_end` arm is
kept as in the source, although the loop above can only return with the
closing quote under the cursor. -/
def string_fn (fuel : Nat) (st : Sc) : Except ScanErr (Token × Sc) :=
  match string_loop fuel st with
  | .error e => .error e
  | .ok st1 =>
    if is_at_end st1 then .ok (error_token st1)
    else .ok (make_token TokenKind.String (bump st1))

/-- `Scanner::scan_token` (scanner.rs lines 20–69): skip whitespace and
comments, set `start`, return `Eof` at the end; otherwise `advance`
(read the byte under the cursor — in bounds here — and move past it) and
dispatch: identifiers, numbers, punctuation, one-or-two-character
operators via `compare`, string literals, else an error token. -/
def scan_token (st0 : Sc) : Except ScanErr (Token × Sc) :=
  match skip_whitespace (st0.source.length + 1) st0 with
  | .error e => .error e
  | .ok stw =>
    let fuel := st0.source.length + 1
    let st := { stw with start := stw.current }
    if is_at_end st then .ok (make_token TokenKind.Eof st)
    else
      match peek st with
      | .error e => .error e
      | .ok c =>
        let st2 := bump st
        if c.isAlpha then identifier_fn fuel st2
        else if c.isDigit then number_fn fuel st2
        else if c = '(' then .ok (make_token TokenKind.LeftParen st2)
        else if c = ')' then .ok (make_token TokenKind.RightParen st2)
        else if c = '{' then .ok (make_token TokenKind.LeftBrace st2)
        else if c = '}' then .ok (make_token TokenKind.RightBrace st2)
        else if c = ';' then .ok (make_token TokenKind.Semicolon st2)
        else if c = ',' then .ok (make_token TokenKind.Comma st2)
        else if c = '.' then .ok (make_token TokenKind.Dot st2)
        else if c = '-' then .ok (make_token TokenKind.Minus st2)
        else if c = '+' then .ok (make_token TokenKind.Plus st2)
        else if c = '/' then .ok (make_token TokenKind.Slash st2)
        else if c = '*' then .ok (make_token TokenKind.Star st2)
        else if c = '!' then
          let r := sc_compare st2 '=' TokenKind.BangEqual TokenKind.Bang
          .ok (make_token r.1 r.2)
        else if c = '=' then
          let r := sc_compare st2 '=' TokenKind.EqualEqual TokenKind.Equal
          .ok (make_token r.1 r.2)
        else if c = '<' then
          let r := sc_compare st2 '=' TokenKind.LessEqual TokenKind.Less
          .ok (make_token r.1 r.2)
        else if c = '>' then
          let r := sc_compare st2 '=' TokenKind.GreaterEqual TokenKind.Greater
          .ok (make_token r.1 r.2)
        else if c = '"' then string_fn fuel st2
        else .ok (error_token st2)

/-- Three successive `scan_token` calls, threading the scanner state. -/
def scan3 (st : Sc) : Except ScanErr (Token × Token × Token) :=
  match scan_token st with
  | .error e => .error e
  | .ok (t1, s1) =>
    match scan_token s1 with
    | .error e => .error e
    | .ok (t2, s2) =>
      match scan_token s2 with
      | .error e => .error e
      | .ok (t3, _) => .ok (t1, t2, t3)

/-- Claim C8, evaluation at the failing inputs: on each of the sources
`1`, `a`, `/` and `1.` — the source ending immediately after a digit, an
identifier character, a lone `/`, and a `.` inside a number — the very
first `scan_token` call indexes the source out of bounds (at index 1,
1, 1 and 2 respectively: the unchecked `peek`/`peek_next`) instead of
returning a token.  With one more character the same call succeeds, as
the final conjunct shows on `1;`. -/
theorem scan_token_oob_at_end :
    scan_token ⟨['1'], 0, 0, 1⟩ = .error (.oob 1) ∧
    scan_token ⟨['a'], 0, 0, 1⟩ = .error (.oob 1) ∧
    scan_token ⟨['/'], 0, 0, 1⟩ = .error (.oob 1) ∧
    scan_token ⟨['1', '.'], 0, 0, 1⟩ = .error (.oob 2) ∧
    scan_token ⟨['1', ';'], 0, 0, 1⟩
      = .ok (⟨TokenKind.Number, ['1'], 1⟩, ⟨['1', ';'], 0, 1, 1⟩) := by
  exact ⟨rfl, rfl, rfl, rfl, rfl⟩

/-- Claim C10, counterexample: in the source
`a\n"b\nc" d;` the token `d` follows the newline at index 1, which
stands outside any string literal, yet it is reported at line 2, not
line 1: the whitespace newline reset the counter to 1, and the two-line
string literal then incremented it.  So not *every* token after a
whitespace newline carries line 1. -/
theorem token_after_newline_counterexample :
    scan3 ⟨['a', '\n', '"', 'b', '\n', 'c', '"', ' ', 'd', ';'], 0, 0, 1⟩
      = .ok (⟨TokenKind.Identifier, ['a'], 1⟩,
          ⟨TokenKind.String, ['"', 'b', '\n', 'c', '"'], 2⟩,
          ⟨TokenKind.Identifier, ['d'], 2⟩) ∧
    (2 : Nat) ≠ 1 := by
  exact ⟨rfl, by decide⟩

/-- The comment loop never touches the line counter. -/
theorem comment_loop_line (fuel : Nat) :
    ∀ st st', comment_loop fuel st = .ok st' → st'.line = st.line := by
  induction fuel with
  | zero => intro st st' h; cases h
  | succ n ih =>
    intro st st' h
    simp only [comment_loop] at h
    cases hp : peek st with
    | error e => rw [hp] at h; cases h
    | ok c =>
      simp only [hp] at h
      by_cases hc : c = '\n'
      · simp only [hc, if_pos rfl] at h
        cases h
        rfl
      · rw [if_neg hc] at h
        exact ih (bump st) st' h

/-- Claim C10, amended: whenever `skip_whitespace` consumes a newline as
inter-token whitespace it *sets* the line counter to 1 (second
conjunct); and a whitespace run never increments the counter — after
`skip_whitespace` the line is either reset to 1 or exactly what it was
(first conjunct).  Token line numbers are therefore not monotone in the
source position; a token whose preceding whitespace contains a newline
is reported at line 1 *unless* a string literal with embedded newlines
(the one place the counter is incremented) is scanned between that
newline and the token, as the counterexample shows. -/
theorem skip_whitespace_resets_line :
    (∀ fuel st st', skip_whitespace fuel st = .ok st' →
      st'.line = 1 ∨ st'.line = st.line) ∧
    (∀ st fuel, st.source.get? st.current = some '\n' →
      skip_whitespace (fuel + 1) st
        = skip_whitespace fuel (bump { st with line := 1 })) := by
  constructor
  · intro fuel
    induction fuel with
    | zero => intro st st' h; cases h
    | succ n ih =>
      intro st st' h
      simp only [skip_whitespace] at h
      by_cases he : is_at_end st
      · rw [if_pos he] at h
        cases h
        right
        rfl
      · rw [if_neg he] at h
        cases hp : peek st with
        | error e => rw [hp] at h; cases h
        | ok c =>
          simp only [hp] at h
          by_cases hw : rust_is_whitespace c
          · rw [if_pos hw] at h
            rcases ih _ _ h with h1 | h1
            · exact Or.inl h1
            · by_cases hc : c = '\n'
              · left
                rw [h1]
                simp [hc, bump]
              · right
                rw [h1]
                simp [bump, if_neg hc]
          · rw [if_neg hw] at h
            by_cases hc : c = '/'
            · rw [if_pos hc] at h
              cases hp2 : peek_next st with
              | error e => rw [hp2] at h; cases h
              | ok c2 =>
                simp only [hp2] at h
                by_cases hc2 : c2 = '/'
                · rw [if_pos hc2] at h
                  exact Or.inr (comment_loop_line n st st' h)
                · rw [if_neg hc2] at h
                  cases h
                  right
                  rfl
            · rw [if_neg hc] at h
              cases h
              right
              rfl
  · intro st fuel h
    have hlt : st.current < st.source.length := by
      by_contra hge
      rw [List.get?_eq_none.mpr (Nat.le_of_not_lt hge)] at h
      cases h
    have he : is_at_end st = false := by
      simp only [is_at_end, decide_eq_false_iff_not, Nat.not_le]
      exact hlt
    have h2 : st.source[st.current]? = some '\n' := by simpa using h
    have hp : peek st = .ok '\n' := by simp [peek, h2]
    simp only [skip_whitespace, he, hp]
    norm_num [rust_is_whitespace]

/-- Claim C10, witness: a source that is one newline; with the newline
under the cursor, one `skip_whitespace` step rewrites the line counter
from 7 to 1 and advances. -/
theorem skip_whitespace_resets_line_witness :
    skip_whitespace 1 ⟨['\n'], 0, 0, 7⟩ = skip_whitespace 0 (bump ⟨['\n'], 0, 0, 1⟩) :=
  skip_whitespace_resets_line.2 ⟨['\n'], 0, 0, 7⟩ 0 rfl
